import Mathlib

/-!
# Verification of the graphrag-workbench layout core

Shallow embedding of the 3D force-layout engine (`src/lib/forceSimulation.ts`),
the graph data model (`src/lib/graphData.ts`), and the community subtree
selector (`src/app/page.tsx:getCompleteHierarchyTree`).

Modelling conventions:
* JavaScript numbers are modelled as `ℚ` (every IEEE-754 double is rational);
  integer-valued fields such as `level` are modelled as `ℤ`.
* The transcendental operations used only for placing points on the Fibonacci
  sphere (`Math.sin`, `Math.cos`, `Math.acos`, `Math.sqrt`, `Math.PI`) and the
  `Math.random()` stream are passed in as explicit parameters (`RealOps`,
  `rand : ℕ → ℚ`), so every definition is computable and every theorem holds
  for arbitrary interpretations of those operations.
* JavaScript `Map` objects with string keys are modelled as functions
  `String → Option β`; `set` overwrites, matching last-write-wins semantics.
* JavaScript strict equality (`===`) between values of different dynamic
  types is modelled by `JsVal.jsEq`, which is `false` across types and on
  `NaN`, exactly as in the language specification.
-/

/-- A JavaScript dynamic value, as far as the code under verification needs:
strings, (rational-valued) numbers, and `NaN` (the result of a failed
`parseInt`). -/
inductive JsVal where
  | vstr : String → JsVal
  | vnum : ℚ → JsVal
  | vnan : JsVal
deriving DecidableEq

/-- JavaScript strict equality `===`: equal same-type values are equal;
`NaN === x` is always false; comparisons across types (in particular
`string === number`) are always false. -/
def JsVal.jsEq : JsVal → JsVal → Bool
  | .vstr a, .vstr b => a == b
  | .vnum a, .vnum b => a == b
  | _, _ => false

/-- The integer value of a nonempty leading decimal-digit prefix of `s`
(after an optional sign), if any: the core of `parseInt`. -/
def parseIntCore (s : String) : Option ℤ :=
  let t := s.trim
  let (sign, digits) :=
    if t.startsWith "-" then ((-1 : ℤ), (t.drop 1).toList)
    else if t.startsWith "+" then ((1 : ℤ), (t.drop 1).toList)
    else ((1 : ℤ), t.toList)
  let pre := digits.takeWhile (fun ch => ch.isDigit)
  if pre.isEmpty then none
  else some (sign * (pre.foldl (fun acc ch => 10 * acc + (ch.toNat - 48)) (0 : ℕ) : ℕ))

/-- JavaScript `parseInt` on a string: a number on success, `NaN` otherwise. -/
def parseIntJs (s : String) : JsVal :=
  match parseIntCore s with
  | some n => .vnum (n : ℚ)
  | none => .vnan

/-- `parseInt` never yields a string value, so strict equality against a
string is always `false` (string vs. number / string vs. NaN). -/
theorem jsEq_vstr_parseIntJs (s t : String) :
    JsVal.jsEq (.vstr s) (parseIntJs t) = false := by
  unfold parseIntJs
  cases parseIntCore t <;> rfl

/-- Symmetric version: `parseInt … === someString` is always `false`. -/
theorem jsEq_parseIntJs_vstr (s t : String) :
    JsVal.jsEq (parseIntJs t) (.vstr s) = false := by
  unfold parseIntJs
  cases parseIntCore t <;> rfl

/-- A string-keyed JavaScript `Map` holding values of type `β`. -/
def SMap (β : Type) : Type := String → Option β

/-- The empty map. -/
def SMap.empty {β : Type} : SMap β := fun _ => none

/-- `Map.prototype.set`: overwrite the binding for `k`. -/
def SMap.set {β : Type} (m : SMap β) (k : String) (v : β) : SMap β :=
  fun k' => if k' = k then some v else m k'

theorem SMap.get_set {β : Type} (m : SMap β) (k k' : String) (v : β) :
    SMap.set m k v k' = if k' = k then some v else m k' := rfl

/-! ## Data model (`src/lib/graphData.ts`)

All identifier-like fields are produced by the loader via `String(...)`, so
they are strings at runtime (`parseJsonToCommunities` etc.). `parent` is
`undefined` (here `none`) when absent or `-1`. The TypeScript interface
declares `children: string[]`, but the code elsewhere guards against it being
missing at runtime (`forceSimulation.ts` line 535 checks
`community.children && Array.isArray(community.children)`), so it is modelled
as `Option (List String)`. -/

structure Entity where
  id : String
  human_readable_id : String
  title : String
  type' : String
  description : String
  frequency : ℚ
  degree : ℚ
deriving DecidableEq

structure Relationship where
  id : String
  human_readable_id : String
  source : String
  target : String
  description : String
  weight : ℚ
deriving DecidableEq

structure Community where
  id : String
  human_readable_id : String
  level : ℤ
  parent : Option String
  children : Option (List String)
  title : String
  entity_ids : List String
  size : ℚ
deriving DecidableEq

/-- Axis-aligned bounding box attached by `precomputeCommunityData`. -/
structure Bounds where
  center : ℚ × ℚ × ℚ
  size : ℚ × ℚ × ℚ
  padding : ℚ
deriving DecidableEq

/-- A community together with the derived fields attached in place by
`precomputeCommunityData`. In JavaScript the hierarchy lists hold references
to the (mutated) community objects themselves, a cyclic object graph; the
value-level embedding stores the base `Community` projection of the referenced
communities, which is faithful for every observation the code makes of them
(only base fields are ever read). -/
structure AnnotatedCommunity extends Community where
  computedBounds : Option Bounds := none
  computedHierarchy : Option (List Community × List Community) := none
  computedColor : Option String := none
  computedOpacity : Option ℚ := none
deriving DecidableEq

structure GraphData where
  entities : List Entity
  relationships : List Relationship
  communities : List Community
deriving DecidableEq

/-! ## Force configuration (`src/lib/forceSimulation.ts` lines 32-54) -/

structure ForceConfig where
  chargeStrength : ℚ
  linkDistance : ℚ
  linkStrength : ℚ
  collisionRadius : ℚ
  communityStrength : ℚ
  centerStrength : ℚ
  spread3D : ℚ
  levelSpacing : ℚ
  sphericalConstraint : ℚ
deriving DecidableEq

def defaultForceConfig : ForceConfig where
  chargeStrength := -100
  linkDistance := 30
  linkStrength := 1/5
  collisionRadius := 6
  communityStrength := 1/5
  centerStrength := 1/50
  spread3D := 150
  levelSpacing := 40
  sphericalConstraint := 1/20

/-- The transcendental operations used by the Fibonacci-sphere placement,
abstracted so that the embedding is computable; all theorems hold for every
interpretation. -/
structure RealOps where
  sin : ℚ → ℚ
  cos : ℚ → ℚ
  acos : ℚ → ℚ
  sqrt : ℚ → ℚ
  pi : ℚ

/-- A trivial interpretation of the transcendental operations, used to
evaluate witnesses on concrete inputs. -/
def trivOps : RealOps where
  sin := fun _ => 0
  cos := fun _ => 0
  acos := fun _ => 0
  sqrt := fun _ => 0
  pi := 0

/-- A trivial `Math.random()` stream for concrete evaluation. -/
def trivRand : ℕ → ℚ := fun _ => 0

/-! ## Node/link preprocessing (`src/lib/forceSimulation.ts` lines 104-189) -/

def ENTITY_COLORS : String → Option String := fun t =>
  (SMap.set (SMap.set (SMap.set (SMap.set (SMap.set (SMap.set SMap.empty
    "ORGANIZATION" "#ff6b6b") "EVENT" "#4ecdc4") "PERSON" "#45b7d1")
    "GEO" "#96ceb4") "PROCESS" "#feca57") "unnamed" "#95a5a6") t

/-- `calculateNodeSize` (`forceSimulation.ts` lines 564-573). -/
def calculateNodeSize (degree frequency : ℚ) : ℚ :=
  let size := 4/5 + (degree + frequency * (1/10)) * (3/20)
  min size 4

/-- `calculateLinkThickness` (`forceSimulation.ts` lines 575-584). -/
def calculateLinkThickness (weight : ℚ) : ℚ :=
  let thickness := 1/5 + weight * (1/10)
  min thickness 2

structure Node3D extends Entity where
  x : ℚ
  y : ℚ
  z : ℚ
  community : Option Community
  communityLevel : ℤ
  abstractionLevel : ℚ
  computedSize : ℚ
  computedColor : String
deriving DecidableEq

structure Link3D where
  id : String
  source : Node3D
  target : Node3D
  weight : ℚ
  description : String
deriving DecidableEq

/-- The `entityToCommunity` reverse lookup (`forceSimulation.ts` lines
108-113): for each community, each member entity id maps to it; later
communities overwrite earlier ones on a shared member. -/
def entityToCommunity (g : GraphData) : SMap Community :=
  g.communities.foldl
    (fun m community => community.entity_ids.foldl
      (fun m' entityId => SMap.set m' entityId community) m)
    SMap.empty

/-- The abstraction score `entity.degree + entity.frequency * 0.5`
(`forceSimulation.ts` line 121). -/
def abstractionScore (e : Entity) : ℚ := e.degree + e.frequency * (1/2)

/-- `normalizedAbstraction` (`forceSimulation.ts` lines 122-127):
`Math.max`/`Math.min` over all entities' scores, then a guard
`max > min ? (score - min)/(max - min) : 0.5`. On an empty entity list the
JavaScript spreads give `-Infinity > Infinity`, which is false, selecting the
`0.5` branch; the wildcard case mirrors that (it is unreachable from the
per-entity map anyway). -/
def normalizedAbstraction (g : GraphData) (e : Entity) : ℚ :=
  let scores := g.entities.map abstractionScore
  match scores.max?, scores.min? with
  | some maxAbstraction, some minAbstraction =>
      if minAbstraction < maxAbstraction then
        (abstractionScore e - minAbstraction) / (maxAbstraction - minAbstraction)
      else 1/2
  | _, _ => 1/2

/-- The radius pipeline of `preprocessData` (lines 129-137): map normalized
abstraction inversely onto `[0.1·spread, spread]`, then add the community
level offset `communityLevel * levelSpacing * 0.3`. -/
def finalRadiusOf (config : ForceConfig) (g : GraphData) (e : Entity)
    (communityLevel : ℤ) : ℚ :=
  let minRadius := config.spread3D * (1/10)
  let maxRadius := config.spread3D
  let radius := minRadius + (1 - normalizedAbstraction g e) * (maxRadius - minRadius)
  let communityOffset := (communityLevel : ℚ) * config.levelSpacing * (3/10)
  radius + communityOffset

/-- A point of the golden-angle ("Fibonacci sphere") spiral: index `i` of `n`
points placed at radius `r`. Both the node seeding and the community centers
inline exactly this formula. -/
def fibSpherePoint (ops : RealOps) (r : ℚ) (i n : ℕ) : ℚ × ℚ × ℚ :=
  let goldenAngle := ops.pi * (3 - ops.sqrt 5)
  let phi := ops.acos (1 - 2 * ((i : ℚ) / (n : ℚ)))
  let theta := goldenAngle * (i : ℚ)
  (r * ops.sin phi * ops.cos theta,
   r * ops.sin phi * ops.sin theta,
   r * ops.cos phi)

/-- The body of the `graphData.entities.map` of `preprocessData` (lines
116-160), building one `Node3D` from entity `e` at index `i`. `rand i` is the
`Math.random()` draw for this entity. -/
def mkNode (ops : RealOps) (rand : ℕ → ℚ) (config : ForceConfig)
    (g : GraphData) (i : ℕ) (e : Entity) : Node3D :=
  let community := entityToCommunity g e.id
  let communityLevel : ℤ := match community with
    | some c => c.level
    | none => 0
  let finalRadius := finalRadiusOf config g e communityLevel
  let goldenAngle := ops.pi * (3 - ops.sqrt 5)
  let phi := ops.acos (1 - 2 * ((i : ℚ) / (g.entities.length : ℚ)))
  let theta := goldenAngle * (i : ℚ)
  let randomFactor := 9/10 + rand i * (2/10)
  let adjustedRadius := finalRadius * randomFactor
  { e with
    x := adjustedRadius * ops.sin phi * ops.cos theta
    y := adjustedRadius * ops.sin phi * ops.sin theta
    z := adjustedRadius * ops.cos phi
    community := community
    communityLevel := communityLevel
    abstractionLevel := normalizedAbstraction g e
    computedSize := calculateNodeSize e.degree e.frequency
    computedColor := (ENTITY_COLORS e.type').getD "#95a5a6" }

/-- The node array produced by `preprocessData`. -/
def preprocessNodes (ops : RealOps) (rand : ℕ → ℚ) (config : ForceConfig)
    (g : GraphData) : List Node3D :=
  g.entities.mapIdx (fun i e => mkNode ops rand config g i e)

/-- The `nodeMap` of `preprocessData` (lines 162-167): every node is entered
under its id and (as a backup) its title; later entries win. -/
def nodeMapOf (nodes : List Node3D) : SMap Node3D :=
  nodes.foldl (fun m node => SMap.set (SMap.set m node.id node) node.title node)
    SMap.empty

/-- The body of the `relationships.map` (lines 170-188): resolve both
endpoints through `nodeMap`; a relationship with an unresolvable endpoint
yields `none` (logged with `console.warn` and skipped). -/
def resolveLink (nodes : List Node3D) (rel : Relationship) : Option Link3D :=
  match nodeMapOf nodes rel.source, nodeMapOf nodes rel.target with
  | some sourceNode, some targetNode =>
      some { id := rel.id, source := sourceNode, target := targetNode,
             weight := rel.weight, description := rel.description }
  | _, _ => none

/-- The link array produced by `preprocessData`: the `.map(...).filter(link
=> link !== null)` pipeline. -/
def preprocessLinks (ops : RealOps) (rand : ℕ → ℚ) (config : ForceConfig)
    (g : GraphData) : List Link3D :=
  g.relationships.filterMap (resolveLink (preprocessNodes ops rand config g))

/-- Values stored in `nodeMap` all come from the node list it was built
from. -/
theorem nodeMapOf_mem (nodes : List Node3D) (k : String) (n : Node3D)
    (h : nodeMapOf nodes k = some n) : n ∈ nodes := by
  unfold nodeMapOf at h
  suffices H : ∀ (l : List Node3D) (m : SMap Node3D),
      (∀ k' n', m k' = some n' → n' ∈ nodes) →
      (∀ x ∈ l, x ∈ nodes) →
      (l.foldl (fun m node => SMap.set (SMap.set m node.id node) node.title node) m) k
        = some n → n ∈ nodes by
    exact H nodes SMap.empty (fun _ _ h' => by simp [SMap.empty] at h')
      (fun x hx => hx) h
  intro l
  induction l with
  | nil =>
      intro m hm _ hfold
      exact hm _ _ hfold
  | cons head tail ih =>
      intro m hm hl hfold
      refine ih _ ?_ (fun x hx => hl x (List.mem_cons_of_mem _ hx)) hfold
      intro k' n' hget
      simp only [SMap.set] at hget
      split at hget
      · cases hget
        exact hl head (List.mem_cons_self _ _)
      · split at hget
        · cases hget
          exact hl head (List.mem_cons_self _ _)
        · exact hm _ _ hget

/-- C1 -- For every input `GraphData` (and every interpretation of the
transcendental operations and the random stream), every `Link3D` produced by the
layout preprocessing has `source` and `target` that are nodes of the produced
`Node3D` array, and a relationship one of whose endpoints resolves to no node
produces no link (it is skipped, with a `console.warn`, and processing
continues with the remaining relationships). -/
theorem links_endpoints_are_nodes (ops : RealOps) (rand : ℕ → ℚ)
    (config : ForceConfig) (g : GraphData) :
    (∀ l ∈ preprocessLinks ops rand config g,
        l.source ∈ preprocessNodes ops rand config g ∧
        l.target ∈ preprocessNodes ops rand config g) ∧
    (∀ rel ∈ g.relationships,
        (nodeMapOf (preprocessNodes ops rand config g) rel.source = none ∨
         nodeMapOf (preprocessNodes ops rand config g) rel.target = none) →
        resolveLink (preprocessNodes ops rand config g) rel = none) := by
  constructor
  · intro l hl
    unfold preprocessLinks at hl
    rcases List.mem_filterMap.mp hl with ⟨rel, _, hres⟩
    unfold resolveLink at hres
    rcases hs : nodeMapOf (preprocessNodes ops rand config g) rel.source with _ | sn
    · rw [hs] at hres; exact absurd hres (by simp)
    rcases ht : nodeMapOf (preprocessNodes ops rand config g) rel.target with _ | tn
    · rw [hs, ht] at hres; exact absurd hres (by simp)
    rw [hs, ht] at hres
    cases hres
    exact ⟨nodeMapOf_mem _ _ _ hs, nodeMapOf_mem _ _ _ ht⟩
  · intro rel _ hnone
    unfold resolveLink
    rcases hnone with h | h
    · rw [h]
    · rw [h]
      rcases nodeMapOf (preprocessNodes ops rand config g) rel.source with _ | _ <;> rfl

/-- A one-entity test graph whose single relationship resolves its source by
entity id and its target by entity title. -/
def testEntityC1 : Entity where
  id := "e1"
  human_readable_id := "1"
  title := "Alpha"
  type' := "PERSON"
  description := ""
  frequency := 2
  degree := 3

def testRelC1 : Relationship where
  id := "r1"
  human_readable_id := "1"
  source := "e1"
  target := "Alpha"
  description := "links to itself"
  weight := 1

def testGraphC1 : GraphData where
  entities := [testEntityC1]
  relationships := [testRelC1]
  communities := []

def testLinkC1 : Link3D where
  id := "r1"
  source := mkNode trivOps trivRand defaultForceConfig testGraphC1 0 testEntityC1
  target := mkNode trivOps trivRand defaultForceConfig testGraphC1 0 testEntityC1
  weight := 1
  description := "links to itself"

/-- Witness for C1 at a concrete input. -/
theorem links_endpoints_are_nodes_witness :
    testLinkC1 ∈ preprocessLinks trivOps trivRand defaultForceConfig testGraphC1 ∧
    testLinkC1.source ∈ preprocessNodes trivOps trivRand defaultForceConfig testGraphC1 := by
  have hmem : testLinkC1 ∈ preprocessLinks trivOps trivRand defaultForceConfig testGraphC1 := by
    simp only [preprocessLinks, preprocessNodes, resolveLink, nodeMapOf,
      SMap.set, SMap.empty, testLinkC1, List.mapIdx, List.mapIdx.go,
      List.foldl, List.filterMap]
    simp [mkNode, testGraphC1, testRelC1, testEntityC1]
  exact ⟨hmem,
    ((links_endpoints_are_nodes trivOps trivRand defaultForceConfig testGraphC1).1
      testLinkC1 hmem).1⟩

/-! ## Simulation convergence (`src/lib/forceSimulation.ts` lines 64-101)

The d3-force kinetic-energy scalar ("alpha") starts at 1 and each tick
performs `alpha += (alphaTarget - alpha) * alphaDecay` with `alphaTarget = 0`
and `alphaDecay = 0.03` (constructor, line 71), i.e. it is multiplied by
`1 - 0.03` per tick. The `tick` handler installed by `generateLayout`
increments `iterationCount` and stops/resolves as soon as
`iterationCount >= 500 || alpha < 0.001` (lines 80-94); `alphaMin(0.001)`
(line 72) makes d3's internal stepper agree with the same threshold. Alpha
evolves independently of the node data, so the resolve tick is the same for
every input graph. -/

def alphaDecayConst : ℚ := 3/100

def alphaMinConst : ℚ := 1/1000

def maxIterations : ℕ := 500

/-- Alpha after `k` ticks: `alpha_0 = 1`, one tick multiplies by
`1 - alphaDecay`. -/
def alphaAt : ℕ → ℚ
  | 0 => 1
  | k + 1 => alphaAt k * (1 - alphaDecayConst)

theorem alphaAt_eq_pow (k : ℕ) : alphaAt k = (97/100) ^ k := by
  induction k with
  | zero => rfl
  | succ n ih =>
      rw [alphaAt, ih, pow_succ]
      norm_num [alphaDecayConst]

/-- The stop test evaluated by the tick handler after tick `k`. -/
def resolveCond (k : ℕ) : Prop :=
  maxIterations ≤ k ∨ alphaAt k < alphaMinConst

instance : DecidablePred resolveCond := fun _ =>
  inferInstanceAs (Decidable (_ ∨ _))

theorem resolveCond_exists : ∃ k, resolveCond k :=
  ⟨maxIterations, Or.inl le_rfl⟩

/-- The tick at which `generateLayout` stops the simulation and resolves its
promise: the first tick satisfying the stop test. -/
def resolveTick : ℕ := Nat.find resolveCond_exists

/-- C2 -- `generateLayout` stops and resolves exactly at the first tick `k`
satisfying `k ≥ 500 ∨ alpha_k < 0.001` (and at no earlier tick: the run is
still live before it); with the constructor-fixed decay `0.03` from `1.0`,
that tick is tick 227, so every run terminates within the 500-tick hard cap,
independently of the input graph (alpha does not depend on the node data). -/
theorem generateLayout_resolves_within_cap :
    resolveCond resolveTick ∧ (∀ k < resolveTick, ¬ resolveCond k) ∧
    resolveTick = 227 ∧ resolveTick ≤ maxIterations := by
  have h227 : resolveCond 227 := by
    right
    rw [alphaAt_eq_pow]
    norm_num [alphaMinConst]
  have hlt : ∀ k < 227, ¬ resolveCond k := by
    intro k hk hcond
    rcases hcond with h | h
    · simp [maxIterations] at h
      omega
    · rw [alphaAt_eq_pow] at h
      have hmono : ((97:ℚ)/100) ^ 226 ≤ (97/100) ^ k :=
        pow_le_pow_of_le_one (by norm_num) (by norm_num) (by omega)
      have h226 : (alphaMinConst : ℚ) ≤ (97/100) ^ 226 := by
        norm_num [alphaMinConst]
      exact absurd (lt_of_le_of_lt (h226.trans hmono) h) (lt_irrefl _)
  have heq : resolveTick = 227 := by
    rw [resolveTick, Nat.find_eq_iff]
    exact ⟨h227, hlt⟩
  refine ⟨heq ▸ h227, ?_, heq, ?_⟩
  · intro k hk
    exact hlt k (heq ▸ hk)
  · rw [heq]; norm_num [maxIterations]

/-! ## Community centers (`src/lib/forceSimulation.ts` lines 254-290) -/

/-- JavaScript `x || d` for a number `x`: falls back to `d` exactly when `x`
is falsy (for a rational-valued number: when it is `0`). Applied by the code
to `abstractionLevel`, so a node whose normalized abstraction is exactly `0`
contributes `0.5` instead. -/
def jsOr (a dflt : ℚ) : ℚ := if a = 0 then dflt else a

structure CommunityCenter where
  x : ℚ
  y : ℚ
  z : ℚ
  radius : ℚ
deriving DecidableEq

/-- The body of the `communities.forEach((community, communityIndex) => …)`
of `calculateCommunityCenters`: the center stored for one community (`none`
when it has no resolved member nodes, in which case nothing is stored). -/
def communityCenterEntry (ops : RealOps) (config : ForceConfig)
    (nodes : List Node3D) (total i : ℕ) (community : AnnotatedCommunity) :
    Option CommunityCenter :=
  let communityNodes := nodes.filter (fun node =>
    match node.community with
    | some c => c.id == community.id
    | none => false)
  if 0 < communityNodes.length then
    let avgAbstraction :=
      (communityNodes.map (fun node => jsOr node.abstractionLevel (1/2))).sum /
        (communityNodes.length : ℚ)
    let minRadius := config.spread3D * (1/10)
    let maxRadius := config.spread3D
    let baseRadius := minRadius + (1 - avgAbstraction) * (maxRadius - minRadius)
    let communityRadius :=
      baseRadius + (community.level : ℚ) * config.levelSpacing * (2/10)
    let goldenAngle := ops.pi * (3 - ops.sqrt 5)
    let phi := ops.acos (1 - 2 * ((i : ℚ) / (total : ℚ)))
    let theta := goldenAngle * (i : ℚ)
    some { x := communityRadius * ops.sin phi * ops.cos theta,
           y := communityRadius * ops.sin phi * ops.sin theta,
           z := communityRadius * ops.cos phi,
           radius := communityRadius }
  else none

/-- `calculateCommunityCenters`: clear the map, then store an entry per
community with at least one resolved member. -/
def calculateCommunityCenters (ops : RealOps) (config : ForceConfig)
    (nodes : List Node3D) (communities : List AnnotatedCommunity) :
    SMap CommunityCenter :=
  communities.enum.foldl
    (fun m p =>
      match communityCenterEntry ops config nodes communities.length p.1 p.2 with
      | some center => SMap.set m p.2.id center
      | none => m)
    SMap.empty

/-! ## Simulation state and reconfiguration
(`src/lib/forceSimulation.ts` lines 334-473)

The mutable state of a `ForceSimulation3D` instance, as far as the claims
observe it: the node/link/community arrays, the active config, the cached
community-center map, d3's alpha and whether the internal stepper is running.
The per-force closures installed by `setupForces`/`updateIndividualForces`
read `this.config` and `this.communityCenters` at call time, so they are
represented by those two fields rather than duplicated. -/

structure SimState where
  nodes : List Node3D
  links : List Link3D
  communities : List AnnotatedCommunity
  config : ForceConfig
  communityCenters : SMap CommunityCenter
  alpha : ℚ
  running : Bool

/-- `Partial<ForceConfig>`: the argument of `updateConfig`. -/
structure ForceConfigPatch where
  chargeStrength : Option ℚ := none
  linkDistance : Option ℚ := none
  linkStrength : Option ℚ := none
  collisionRadius : Option ℚ := none
  communityStrength : Option ℚ := none
  centerStrength : Option ℚ := none
  spread3D : Option ℚ := none
  levelSpacing : Option ℚ := none
  sphericalConstraint : Option ℚ := none

def emptyPatch : ForceConfigPatch := {}

/-- The spread `{ ...this.config, ...newConfig }` (line 336). -/
def applyPatch (config : ForceConfig) (p : ForceConfigPatch) : ForceConfig where
  chargeStrength := p.chargeStrength.getD config.chargeStrength
  linkDistance := p.linkDistance.getD config.linkDistance
  linkStrength := p.linkStrength.getD config.linkStrength
  collisionRadius := p.collisionRadius.getD config.collisionRadius
  communityStrength := p.communityStrength.getD config.communityStrength
  centerStrength := p.centerStrength.getD config.centerStrength
  spread3D := p.spread3D.getD config.spread3D
  levelSpacing := p.levelSpacing.getD config.levelSpacing
  sphericalConstraint := p.sphericalConstraint.getD config.sphericalConstraint

/-- `updateConfig` (lines 334-354), incremental path: merge the patch into
the config, return early when there are no nodes, otherwise update the
affected force closures (`updateIndividualForces`, lines 356-410 — which
recomputes the community-center cache exactly when one of the four spatial
parameters is present in the patch, lines 400-409/412-414), then
`alpha(0.1).restart()`. For a well-typed state every force handle exists, so
`updateIndividualForces` cannot throw and this is the path actually taken. -/
def updateConfig (ops : RealOps) (p : ForceConfigPatch) (st : SimState) :
    SimState :=
  let config' := applyPatch st.config p
  if st.nodes.isEmpty then { st with config := config' }
  else
    let centersChanged := p.communityStrength.isSome || p.spread3D.isSome ||
      p.levelSpacing.isSome || p.sphericalConstraint.isSome
    { st with
      config := config'
      communityCenters :=
        if centersChanged then
          calculateCommunityCenters ops config' st.nodes st.communities
        else st.communityCenters
      alpha := 1/10
      running := true }

/-- The `catch` fallback of `updateConfig` (lines 348-353): a full
`setupForces()` (which re-derives every closure from the merged config and
recomputes the community-center cache) followed by `alpha(0.05).restart()`.
The early return for an empty node array happens before the `try`. -/
def updateConfigFallback (ops : RealOps) (p : ForceConfigPatch)
    (st : SimState) : SimState :=
  let config' := applyPatch st.config p
  if st.nodes.isEmpty then { st with config := config' }
  else
    { st with
      config := config'
      communityCenters :=
        calculateCommunityCenters ops config' st.nodes st.communities
      alpha := 1/20
      running := true }

theorem applyPatch_empty (config : ForceConfig) :
    applyPatch config emptyPatch = config := rfl

/-- C6 -- For every partial configuration and every simulation state,
`updateConfig` modifies only the force parameters (config and the
community-center cache the force closures read) and the kinetic energy —
`0.1` on the incremental path, `0.05` on the full re-setup fallback — and
never modifies or discards any node (in particular no node's `x`, `y`, `z`);
`updateConfig({})` changes nothing at all beyond the mandated energy bump. -/
theorem updateConfig_frame (ops : RealOps) (p : ForceConfigPatch)
    (st : SimState) :
    (updateConfig ops p st).nodes = st.nodes ∧
    (updateConfig ops p st).links = st.links ∧
    (updateConfig ops p st).communities = st.communities ∧
    (updateConfigFallback ops p st).nodes = st.nodes ∧
    (updateConfigFallback ops p st).links = st.links ∧
    (updateConfigFallback ops p st).communities = st.communities ∧
    (st.nodes ≠ [] →
      (updateConfig ops p st).alpha = 1/10 ∧
      (updateConfigFallback ops p st).alpha = 1/20) ∧
    (updateConfig ops emptyPatch st =
      if st.nodes.isEmpty then st
      else { st with alpha := 1/10, running := true }) := by
  obtain ⟨nodes, links, communities, config, centers, alpha, running⟩ := st
  unfold updateConfig updateConfigFallback
  by_cases h : nodes.isEmpty
  · refine ⟨?_, ?_, ?_, ?_, ?_, ?_, ?_, ?_⟩ <;>
      simp [h, applyPatch_empty, List.isEmpty_iff.mp h]
  · refine ⟨?_, ?_, ?_, ?_, ?_, ?_, ?_, ?_⟩ <;>
      simp [h, applyPatch_empty,
        show emptyPatch.communityStrength = none from rfl,
        show emptyPatch.spread3D = none from rfl,
        show emptyPatch.levelSpacing = none from rfl,
        show emptyPatch.sphericalConstraint = none from rfl]

/-- A one-node state used to evaluate C6's energy-bump clause concretely. -/
def testStateC6 : SimState where
  nodes := [mkNode trivOps trivRand defaultForceConfig testGraphC1 0 testEntityC1]
  links := []
  communities := []
  config := defaultForceConfig
  communityCenters := SMap.empty
  alpha := 1/1000
  running := false

/-- Witness for C6 at a concrete input. -/
theorem updateConfig_frame_witness :
    testStateC6.nodes ≠ [] ∧
    (updateConfig trivOps emptyPatch testStateC6).alpha = 1/10 ∧
    (updateConfigFallback trivOps emptyPatch testStateC6).alpha = 1/20 := by
  have hne : testStateC6.nodes ≠ [] := by simp [testStateC6]
  exact ⟨hne, (updateConfig_frame trivOps emptyPatch testStateC6).2.2.2.2.2.2.1 hne⟩

/-! ## Post-layout community annotation
(`src/lib/forceSimulation.ts` lines 475-555, `precomputeCommunityData`) -/

/-- `Math.min` folded over a list, starting from `Infinity`: for the nonempty
lists the code guards for, this equals folding from the head. The `[]` value
is arbitrary (never used: the code only computes bounds when
`communityNodes.length > 0`). -/
def foldMinQ : List ℚ → ℚ
  | [] => 0
  | x :: xs => xs.foldl min x

/-- `Math.max` folded over a list, starting from `-Infinity`. -/
def foldMaxQ : List ℚ → ℚ
  | [] => 0
  | x :: xs => xs.foldl max x

/-- The sort comparator `(a, b) => a.level - b.level`, as the `≤` relation of
a stable sort. JavaScript `Array.prototype.sort` is required to be stable,
and a stable sort by a fixed key is extensionally unique, so it is modelled
by Mathlib's stable, structurally recursive `List.insertionSort`. -/
def levelLe (a b : Community) : Prop := a.level ≤ b.level

instance : DecidableRel levelLe := fun a b => Int.decLe a.level b.level

instance : IsTotal Community levelLe := ⟨fun a b => le_total a.level b.level⟩

instance : IsTrans Community levelLe := ⟨fun _ _ _ hab hbc => le_trans hab hbc⟩

/-- The fixed five-color palette (line 551). -/
def communityColors : List String :=
  ["#ff6b6b", "#4ecdc4", "#45b7d1", "#96ceb4", "#feca57"]

/-- JavaScript array indexing `l[i]` with an integer index: `undefined`
(`none`) when out of range; `%` on JavaScript numbers is the truncated
remainder (`Int.tmod`), so a negative level yields a negative index and
`undefined`. -/
def jsIndex (l : List String) (i : ℤ) : Option String :=
  if i < 0 then none else l.get? i.toNat

/-- "Find parent communities" (lines 515-522): parse the community's own
`parent` field with `parseInt` and compare it against every community's
`human_readable_id` with `===`. The loader makes `human_readable_id` a
string, so this strict equality compares a string with a number. -/
def computedParentCommunities (all : List AnnotatedCommunity)
    (c : AnnotatedCommunity) : List Community :=
  match c.parent with
  | none => []
  | some p =>
      match all.find? (fun c2 =>
        JsVal.jsEq (.vstr c2.human_readable_id) (parseIntJs p)) with
      | some parentCommunity => [parentCommunity.toCommunity]
      | none => []

/-- "Find child communities" (lines 524-543): communities whose parsed
`parent` strict-equals this community's `human_readable_id`, then the
explicit `children` list (each entry parsed with `parseInt` and matched with
`===`), de-duplicated by `id`. -/
def computedChildCommunities (all : List AnnotatedCommunity)
    (c : AnnotatedCommunity) : List Community :=
  let viaParentField := (all.filter (fun oc =>
    match oc.parent with
    | none => false
    | some p => JsVal.jsEq (parseIntJs p) (.vstr c.human_readable_id))).map
      (fun oc => oc.toCommunity)
  match c.children with
  | none => viaParentField
  | some kids =>
      kids.foldl (fun acc childHumanId =>
        match all.find? (fun c2 =>
          JsVal.jsEq (.vstr c2.human_readable_id) (parseIntJs childHumanId)) with
        | some childCommunity =>
            if acc.any (fun x => x.id == childCommunity.id) then acc
            else acc ++ [childCommunity.toCommunity]
        | none => acc) viaParentField

/-- The `computedHierarchy` value: both lists sorted by level ascending
(lines 545-548). -/
def computedHierarchyOf (all : List AnnotatedCommunity)
    (c : AnnotatedCommunity) : List Community × List Community :=
  (List.insertionSort levelLe (computedParentCommunities all c),
   List.insertionSort levelLe (computedChildCommunities all c))

/-- The `computedBounds` value (lines 484-509): axis-aligned box over the
resolved member nodes plus fixed padding 35; when no member resolves the
field is left as it was (the code skips the assignment). -/
def computedBoundsOf (nodes : List Node3D) (c : AnnotatedCommunity) :
    Option Bounds :=
  let communityNodes := nodes.filter (fun node => c.entity_ids.contains node.id)
  if 0 < communityNodes.length then
    let xs := communityNodes.map (fun n => n.x)
    let ys := communityNodes.map (fun n => n.y)
    let zs := communityNodes.map (fun n => n.z)
    some { center := ((foldMinQ xs + foldMaxQ xs) / 2,
                      (foldMinQ ys + foldMaxQ ys) / 2,
                      (foldMinQ zs + foldMaxQ zs) / 2),
           size := (foldMaxQ xs - foldMinQ xs + 35,
                    foldMaxQ ys - foldMinQ ys + 35,
                    foldMaxQ zs - foldMinQ zs + 35),
           padding := 35 }
  else c.computedBounds

/-- `colors[community.level % colors.length]` (line 552). -/
def computedColorOf (c : AnnotatedCommunity) : Option String :=
  jsIndex communityColors (Int.tmod c.level (communityColors.length : ℤ))

/-- The in-place mutation performed on one community by
`precomputeCommunityData`. -/
def updCommunity (nodes : List Node3D) (all : List AnnotatedCommunity)
    (c : AnnotatedCommunity) : AnnotatedCommunity where
  toCommunity := c.toCommunity
  computedBounds := computedBoundsOf nodes c
  computedHierarchy := some (computedHierarchyOf all c)
  computedColor := computedColorOf c
  computedOpacity := some (3/20)

/-- `precomputeCommunityData`: annotate every community. (The function also
builds a `communityMap` keyed by `id` and `human_readable_id.toString()`,
lines 477-481, but never reads it; it is omitted as dead code.) -/
def precomputeCommunityData (nodes : List Node3D)
    (all : List AnnotatedCommunity) : List AnnotatedCommunity :=
  all.map (updCommunity nodes all)

/-- `precomputeCommunityData` as a step on the simulation state: it runs
after `simulation.stop()` inside the tick handler and touches only
`this.communities`; in particular it never calls `restart()`. -/
def precomputeState (st : SimState) : SimState :=
  { st with communities := precomputeCommunityData st.nodes st.communities }

/-- The parent lookup can never succeed: `human_readable_id` is a string and
`parseInt(parent)` is a number (or `NaN`), and `===` across types is false. -/
theorem computedParentCommunities_eq_nil (all : List AnnotatedCommunity)
    (c : AnnotatedCommunity) : computedParentCommunities all c = [] := by
  unfold computedParentCommunities
  cases hp : c.parent with
  | none => rfl
  | some p =>
      have h : all.find? (fun c2 =>
          JsVal.jsEq (.vstr c2.human_readable_id) (parseIntJs p)) = none :=
        List.find?_eq_none.mpr (fun x _ => by simp [jsEq_vstr_parseIntJs])
      simp [h]

/-- Neither child-lookup mechanism can ever succeed, for the same reason. -/
theorem computedChildCommunities_eq_nil (all : List AnnotatedCommunity)
    (c : AnnotatedCommunity) : computedChildCommunities all c = [] := by
  unfold computedChildCommunities
  have hfilter : (all.filter (fun oc =>
      match oc.parent with
      | none => false
      | some p => JsVal.jsEq (parseIntJs p) (.vstr c.human_readable_id))) = [] := by
    refine List.filter_eq_nil_iff.mpr (fun oc _ => ?_)
    cases hp : oc.parent with
    | none => simp
    | some p => simp [jsEq_parseIntJs_vstr]
  rw [hfilter]
  have hfold : ∀ (kids : List String) (acc : List Community),
      kids.foldl (fun acc childHumanId =>
        match all.find? (fun c2 =>
          JsVal.jsEq (.vstr c2.human_readable_id) (parseIntJs childHumanId)) with
        | some childCommunity =>
            if acc.any (fun x => x.id == childCommunity.id) then acc
            else acc ++ [childCommunity.toCommunity]
        | none => acc) acc = acc := by
    intro kids
    induction kids with
    | nil => intro acc; rfl
    | cons k ks ih =>
        intro acc
        have hfind : (all.find? (fun c2 =>
            JsVal.jsEq (.vstr c2.human_readable_id) (parseIntJs k))) = none :=
          List.find?_eq_none.mpr (fun x _ => by simp [jsEq_vstr_parseIntJs])
        simp only [List.foldl_cons, hfind]
        exact ih acc
  cases hk : c.children with
  | none => rfl
  | some kids => simp only [List.map_nil, hfold]

/-- The `computedHierarchy` attached to every community is therefore the pair
of empty lists. -/
theorem computedHierarchyOf_eq_nil (all : List AnnotatedCommunity)
    (c : AnnotatedCommunity) : computedHierarchyOf all c = ([], []) := by
  unfold computedHierarchyOf
  rw [computedParentCommunities_eq_nil, computedChildCommunities_eq_nil]
  rfl

/-- Wrap a freshly loaded community (no derived fields yet). -/
def annotate (c : Community) : AnnotatedCommunity := { toCommunity := c }

/-- A two-community hierarchy as the loader produces it: the child's `parent`
field is the string `"0"`, which equals the parent's `human_readable_id`
string `"0"`, and the parent's explicit `children` list names the child's
`human_readable_id` `"1"`. -/
def c4Parent : Community where
  id := "uuid-p"
  human_readable_id := "0"
  level := 0
  parent := none
  children := some ["1"]
  title := "Parent community"
  entity_ids := []
  size := 0

def c4Child : Community where
  id := "uuid-q"
  human_readable_id := "1"
  level := 1
  parent := some "0"
  children := some []
  title := "Child community"
  entity_ids := []
  size := 0

/-- C4 (failing-input evaluation) -- on a well-formed two-community
hierarchy, `precomputeCommunityData` attaches an empty parent list and an
empty child list to both communities: the lookup compares the string
`human_readable_id` against the number `parseInt(parent)` with `===`, which
is false across types, so the claimed parent/child resolution never happens.
The claimed behavior would give the child `[c4Parent]` as parents and the
parent `[c4Child]` as children. -/
theorem precomputeCommunityData_hierarchy_always_empty :
    (precomputeCommunityData [] [annotate c4Parent, annotate c4Child]).map
      (fun c => c.computedHierarchy) = [some ([], []), some ([], [])] ∧
    c4Child.parent = some "0" ∧
    c4Parent.human_readable_id = "0" ∧
    c4Parent.children = some ["1"] ∧
    c4Child.human_readable_id = "1" := by
  refine ⟨?_, rfl, rfl, rfl, rfl⟩
  simp [precomputeCommunityData, updCommunity, computedHierarchyOf_eq_nil]

/-- Re-annotating leaves the bounding box unchanged: the member filter reads
only base fields, and when it is empty the old field value is kept. -/
theorem computedBoundsOf_upd (nodes : List Node3D)
    (all : List AnnotatedCommunity) (c : AnnotatedCommunity) :
    computedBoundsOf nodes (updCommunity nodes all c) = computedBoundsOf nodes c := by
  have he : (updCommunity nodes all c).entity_ids = c.entity_ids := rfl
  have hb : (updCommunity nodes all c).computedBounds = computedBoundsOf nodes c := rfl
  unfold computedBoundsOf
  simp only [he, hb]
  by_cases h : 0 < (nodes.filter (fun node => c.entity_ids.contains node.id)).length
  · simp only [if_pos h]
  · simp only [if_neg h]
    unfold computedBoundsOf
    simp only [if_neg h]

/-- One annotation pass absorbs a second one (pointwise form). -/
theorem updCommunity_idem (nodes : List Node3D)
    (all all' : List AnnotatedCommunity) (c : AnnotatedCommunity) :
    updCommunity nodes all' (updCommunity nodes all c) = updCommunity nodes all c := by
  have hcolor : computedColorOf (updCommunity nodes all c) = computedColorOf c := rfl
  have hbase : (updCommunity nodes all c).toCommunity = c.toCommunity := rfl
  show ({ toCommunity := (updCommunity nodes all c).toCommunity,
          computedBounds := computedBoundsOf nodes (updCommunity nodes all c),
          computedHierarchy := some (computedHierarchyOf all' (updCommunity nodes all c)),
          computedColor := computedColorOf (updCommunity nodes all c),
          computedOpacity := some (3/20) } : AnnotatedCommunity) =
        { toCommunity := c.toCommunity,
          computedBounds := computedBoundsOf nodes c,
          computedHierarchy := some (computedHierarchyOf all c),
          computedColor := computedColorOf c,
          computedOpacity := some (3/20) }
  rw [computedBoundsOf_upd, hcolor, hbase, computedHierarchyOf_eq_nil,
    computedHierarchyOf_eq_nil]

/-- C9 -- `precomputeCommunityData` is idempotent: rerunning it over the same
finalized node positions and the already-annotated community list reproduces
every derived field (`computedBounds`, `computedHierarchy`, `computedColor`,
`computedOpacity`) exactly, and as a step on the simulation state it touches
only the community list — it never restarts the stopped simulation (alpha and
the running flag are untouched) and never moves a node. -/
theorem precomputeCommunityData_idempotent (nodes : List Node3D)
    (all : List AnnotatedCommunity) (st : SimState) :
    precomputeCommunityData nodes (precomputeCommunityData nodes all) =
      precomputeCommunityData nodes all ∧
    (precomputeState st).alpha = st.alpha ∧
    (precomputeState st).running = st.running ∧
    (precomputeState st).nodes = st.nodes ∧
    (precomputeState st).links = st.links ∧
    (precomputeState st).config = st.config := by
  refine ⟨?_, rfl, rfl, rfl, rfl, rfl⟩
  unfold precomputeCommunityData
  rw [List.map_map]
  exact List.map_congr_left (fun c _ => updCommunity_idem nodes all _ c)

/-! ## Community subtree selector
(`src/app/page.tsx` lines 227-315, `getCompleteHierarchyTree`)

This function works over the untyped runtime communities; all of its
identifier handling goes through `String(...)`, and since every identifier is
already a string after loading, those conversions are identities here. -/

/-- `communityByHumanIdMap` (line 235): `new Map(allCommunities.map(c =>
[String(c.human_readable_id), c]))` — later entries overwrite earlier ones. -/
def communityByHumanIdMap (all : List Community) : SMap Community :=
  all.foldl (fun m c => SMap.set m c.human_readable_id c) SMap.empty

/-- `childrenByParentId` (lines 238-247): group communities by
`String(parent)` in list order (communities with no `parent` are skipped). -/
def childrenByParentId (all : List Community) : SMap (List Community) :=
  all.foldl
    (fun m c =>
      match c.parent with
      | none => m
      | some p => SMap.set m p ((m p).getD [] ++ [c]))
    SMap.empty

/-- The upward walk of Step 1 (lines 251-265): follow `parent` links,
prepending each resolved parent to `pathToRoot`; stop when the current
community has no `parent`, when the parent id does not resolve, or when the
path grows beyond 10 entries. The loop body runs at most 10 times (the path
starts at length 1, grows by one per iteration, and the `> 10` check stops
it), so fuel `11` is never exhausted. -/
def walkUp (m : SMap Community) : ℕ → Community → List Community → List Community
  | 0, _, path => path
  | fuel + 1, current, path =>
      match current.parent with
      | none => path
      | some p =>
          match m p with
          | none => path
          | some parentCommunity =>
              let path' := parentCommunity :: path
              if 10 < path'.length then path'
              else walkUp m fuel parentCommunity path'

/-- `pathToRoot` as computed by Step 1, starting from the selected
community. -/
def pathToRoot (m : SMap Community) (selected : Community) : List Community :=
  walkUp m 11 selected [selected]

/-- `rootCommunity = pathToRoot[0]` (line 268); the path is never empty, so
the default is irrelevant. -/
def walkRootOf (m : SMap Community) (selected : Community) : Community :=
  (pathToRoot m selected).headD selected

/-- The mutation of the stored children array (lines 285-293): starting from
the array looked up in `childrenByParentId` (or a fresh empty one), append
each resolvable entry of the community's explicit `children` list that is not
already present (compared by `id`). -/
def addExplicitChildren (hm : SMap Community) (stored : List Community)
    (kids : List String) : List Community :=
  kids.foldl
    (fun acc childHumanId =>
      match hm childHumanId with
      | some childCommunity =>
          if acc.any (fun x => x.id == childCommunity.id) then acc
          else acc ++ [childCommunity]
      | none => acc)
    stored

/-- The breadth-first collection of Step 2 (lines 272-300). The queue is
FIFO (`queue.shift()`); a community is skipped if already visited; reading
`community.children` when the runtime value is missing throws a `TypeError`
(modelled as `Except.error`), which the outer `try` turns into the fallback.
When the children array was obtained from `childrenByParentId`, the in-place
`push` mutates the stored array, so the map is updated at that key.
`fuel` bounds the number of loop iterations; `bfsFuel` below exceeds the
maximal possible number of pushes, so it is never exhausted on any input. -/
def bfsLoop (hm : SMap Community) :
    ℕ → SMap (List Community) → List Community → List String → List String →
    Except Unit (List String)
  | 0, _, _, _, _ => .error ()
  | fuel + 1, cm, queue, visited, collected =>
      match queue with
      | [] => .ok collected
      | community :: rest =>
          if visited.contains community.id then
            bfsLoop hm fuel cm rest visited collected
          else
            let visited' := community.id :: visited
            let collected' := community.id :: collected
            match community.children with
            | none => .error ()
            | some kids =>
                let stored := cm community.human_readable_id
                let merged := addExplicitChildren hm (stored.getD []) kids
                let cm' := match stored with
                  | some _ => SMap.set cm community.human_readable_id merged
                  | none => cm
                let pushes := merged.filter
                  (fun childCommunity => !(visited'.contains childCommunity.id))
                bfsLoop hm fuel cm' (rest ++ pushes) visited' collected'

/-- An upper bound on the number of `bfsLoop` iterations: every iteration
pops one queue entry; entries are the initial root plus pushes; a push
happens only from a previously unvisited community (at most `all.length + 1`
of them), each contributing at most `all.length` reverse-parent children plus
its explicit `children` entries. -/
def bfsFuel (all : List Community) : ℕ :=
  (all.length + 1) * (all.length + (all.map (fun c => (c.children.getD []).length)).sum + 2) + 1

/-- Steps 2-3 from a given root: collect the subtree ids breadth-first, then
return `allCommunities.filter(c => subtree.has(c.id))` sorted by level
ascending (stable sort, comparator `(a.level||0) - (b.level||0)`); on an
internal exception return `[selectedCommunity]` (the `catch`, lines
310-314). -/
def subtreeFromRoot (all : List Community) (root selected : Community) :
    List Community :=
  match bfsLoop (communityByHumanIdMap all) (bfsFuel all)
      (childrenByParentId all) [root] [] [] with
  | .ok subtreeIds =>
      List.insertionSort levelLe (all.filter (fun c => subtreeIds.contains c.id))
  | .error _ => [selected]

/-- `getCompleteHierarchyTree(selectedCommunity, allCommunities)`. -/
def getCompleteHierarchyTree (selected : Community) (all : List Community) :
    List Community :=
  if all.isEmpty then []
  else
    subtreeFromRoot all (walkRootOf (communityByHumanIdMap all) selected) selected

/-- The condition under which the upward walk stops at a community: it has no
`parent` field, or the parent id resolves to no community. -/
def noResolvedParent (m : SMap Community) (c : Community) : Prop :=
  match c.parent with
  | none => True
  | some p => m p = none

/-- A community with no resolvable parent is its own walk root. -/
theorem walkRootOf_self (m : SMap Community) (c : Community)
    (h : noResolvedParent m c) : walkRootOf m c = c := by
  unfold walkRootOf pathToRoot
  unfold noResolvedParent at h
  cases hp : c.parent with
  | none => simp [walkUp, hp]
  | some p =>
      rw [hp] at h
      simp [walkUp, hp, h]

/-- The three-community hierarchy of the claim's scenario: A (root, level 0),
B (parent = A, level 1), C (parent = B, level 2). -/
def c3A : Community where
  id := "uuid-a"
  human_readable_id := "0"
  level := 0
  parent := none
  children := some []
  title := "A"
  entity_ids := []
  size := 0

def c3B : Community where
  id := "uuid-b"
  human_readable_id := "1"
  level := 1
  parent := some "0"
  children := some []
  title := "B"
  entity_ids := []
  size := 0

def c3C : Community where
  id := "uuid-c"
  human_readable_id := "2"
  level := 2
  parent := some "1"
  children := some []
  title := "C"
  entity_ids := []
  size := 0

def c3All : List Community := [c3A, c3B, c3C]

/-- C3 -- whenever the upward walk from the selected community reaches a true
root (one with no resolvable parent — i.e. the input forms a hierarchy the
walk can resolve) and the breadth-first collection succeeds, the result of
`getCompleteHierarchyTree` is exactly the result of selecting the resolved
root itself: the full subtree of the root, not just the selected community's
descendants. The output is always sorted by level ascending. In the concrete
scenario A (root, level 0) ← B (level 1) ← C (level 2), selecting C returns
[A, B, C], and selecting B returns the same [A, B, C]. -/
theorem getCompleteHierarchyTree_root_subtree (sel : Community)
    (all : List Community)
    (hroot : noResolvedParent (communityByHumanIdMap all)
      (walkRootOf (communityByHumanIdMap all) sel))
    (hok : ∃ ids, bfsLoop (communityByHumanIdMap all) (bfsFuel all)
      (childrenByParentId all)
      [walkRootOf (communityByHumanIdMap all) sel] [] [] = .ok ids) :
    getCompleteHierarchyTree sel all =
      getCompleteHierarchyTree (walkRootOf (communityByHumanIdMap all) sel) all ∧
    List.Pairwise (fun a b => a.level ≤ b.level)
      (getCompleteHierarchyTree sel all) ∧
    getCompleteHierarchyTree c3C c3All = [c3A, c3B, c3C] ∧
    getCompleteHierarchyTree c3B c3All = [c3A, c3B, c3C] := by
  have hconcC : getCompleteHierarchyTree c3C c3All = [c3A, c3B, c3C] := rfl
  have hconcB : getCompleteHierarchyTree c3B c3All = [c3A, c3B, c3C] := rfl
  refine ⟨?_, ?_, hconcC, hconcB⟩
  · unfold getCompleteHierarchyTree
    by_cases hemp : all.isEmpty
    · simp [hemp]
    · simp only [hemp, if_false]
      rw [walkRootOf_self _ _ hroot]
      obtain ⟨ids, hids⟩ := hok
      unfold subtreeFromRoot
      rw [hids]
  · unfold getCompleteHierarchyTree
    by_cases hemp : all.isEmpty
    · simp [hemp]
    · simp only [hemp, if_false]
      unfold subtreeFromRoot
      obtain ⟨ids, hids⟩ := hok
      rw [hids]
      have hsorted : List.Pairwise levelLe
          (List.insertionSort levelLe (all.filter (fun c => ids.contains c.id))) :=
        List.sorted_insertionSort levelLe _
      exact hsorted.imp (fun h => h)

/-- Witness for C3 at a concrete input: selecting C in the A←B←C hierarchy. -/
theorem getCompleteHierarchyTree_root_subtree_witness :
    getCompleteHierarchyTree c3C c3All =
      getCompleteHierarchyTree (walkRootOf (communityByHumanIdMap c3All) c3C) c3All ∧
    getCompleteHierarchyTree c3C c3All = [c3A, c3B, c3C] := by
  have h := getCompleteHierarchyTree_root_subtree c3C c3All
    (by exact trivial) ⟨["uuid-c", "uuid-b", "uuid-a"], by rfl⟩
  exact ⟨h.1, h.2.2.1⟩

/-- C7 -- a community whose `parent` id resolves to no community in the input
list is treated as its own root: the upward walk stops immediately, and the
returned list is the resolved subtree computed from the community itself
(rather than from some ancestor). -/
theorem getCompleteHierarchyTree_malformed_parent (sel : Community)
    (all : List Community) (p : String)
    (hp : sel.parent = some p)
    (hnone : communityByHumanIdMap all p = none) :
    walkRootOf (communityByHumanIdMap all) sel = sel ∧
    (all.isEmpty = false →
      getCompleteHierarchyTree sel all = subtreeFromRoot all sel sel) := by
  have hw : walkRootOf (communityByHumanIdMap all) sel = sel := by
    refine walkRootOf_self _ _ ?_
    unfold noResolvedParent
    rw [hp]
    exact hnone
  refine ⟨hw, fun hne => ?_⟩
  unfold getCompleteHierarchyTree
  rw [hw]
  simp [hne]

/-- A community whose `parent` names the nonexistent id `"99"`. -/
def c7Orphan : Community where
  id := "uuid-orphan"
  human_readable_id := "5"
  level := 1
  parent := some "99"
  children := some []
  title := "Orphan"
  entity_ids := []
  size := 0

/-- Witness for C7 at a concrete input: the orphan is its own root and
selecting it returns just itself. -/
theorem getCompleteHierarchyTree_malformed_parent_witness :
    walkRootOf (communityByHumanIdMap [c7Orphan]) c7Orphan = c7Orphan ∧
    getCompleteHierarchyTree c7Orphan [c7Orphan] =
      subtreeFromRoot [c7Orphan] c7Orphan c7Orphan ∧
    getCompleteHierarchyTree c7Orphan [c7Orphan] = [c7Orphan] := by
  have h := getCompleteHierarchyTree_malformed_parent c7Orphan [c7Orphan]
    "99" rfl rfl
  exact ⟨h.1, h.2 rfl, rfl⟩

/-- C8 -- `getCompleteHierarchyTree` is a total function (the embedding
returns a value on every input — nothing escapes the function boundary), and
whenever the breadth-first collection fails with an internal exception (the
only fallible step: reading a missing `children` array throws a `TypeError`),
the `catch` handler returns the singleton list holding exactly the original
selected community. -/
theorem getCompleteHierarchyTree_fail_soft (sel : Community)
    (all : List Community)
    (herr : bfsLoop (communityByHumanIdMap all) (bfsFuel all)
      (childrenByParentId all)
      [walkRootOf (communityByHumanIdMap all) sel] [] [] = .error ())
    (hne : all.isEmpty = false) :
    getCompleteHierarchyTree sel all = [sel] := by
  unfold getCompleteHierarchyTree subtreeFromRoot
  rw [hne, herr]
  rfl

/-- A community whose runtime `children` value is missing: dereferencing it
in the breadth-first loop throws. -/
def c8NoChildren : Community where
  id := "uuid-nc"
  human_readable_id := "7"
  level := 0
  parent := none
  children := none
  title := "No children array"
  entity_ids := []
  size := 0

/-- Witness for C8 at a concrete input. -/
theorem getCompleteHierarchyTree_fail_soft_witness :
    getCompleteHierarchyTree c8NoChildren [c8NoChildren] = [c8NoChildren] :=
  getCompleteHierarchyTree_fail_soft c8NoChildren [c8NoChildren] rfl rfl

/-- Folding `max` over a list of equal values stays put. -/
theorem foldl_max_const (c : ℚ) :
    ∀ (l : List ℚ), (∀ x ∈ l, x = c) → l.foldl max c = c := by
  intro l
  induction l with
  | nil => intro _; rfl
  | cons a as ih =>
      intro h
      have ha : a = c := h a (List.mem_cons_self _ _)
      have := ih (fun x hx => h x (List.mem_cons_of_mem _ hx))
      simp [ha, this]

/-- Folding `min` over a list of equal values stays put. -/
theorem foldl_min_const (c : ℚ) :
    ∀ (l : List ℚ), (∀ x ∈ l, x = c) → l.foldl min c = c := by
  intro l
  induction l with
  | nil => intro _; rfl
  | cons a as ih =>
      intro h
      have ha : a = c := h a (List.mem_cons_self _ _)
      have := ih (fun x hx => h x (List.mem_cons_of_mem _ hx))
      simp [ha, this]

/-- `Math.max`/`Math.min` of a nonempty list of equal values. -/
theorem max?_min?_const (l : List ℚ) (c : ℚ) (hne : l ≠ [])
    (h : ∀ x ∈ l, x = c) : l.max? = some c ∧ l.min? = some c := by
  cases l with
  | nil => exact absurd rfl hne
  | cons a as =>
      have ha : a = c := h a (List.mem_cons_self _ _)
      have has : ∀ x ∈ as, x = c := fun x hx => h x (List.mem_cons_of_mem _ hx)
      constructor
      · show some (as.foldl max a) = some c
        rw [ha, foldl_max_const c as has]
      · show some (as.foldl min a) = some c
        rw [ha, foldl_min_const c as has]

/-- C10 -- when every entity carries the same abstraction score
`degree + 0.5·frequency` (in particular for a single-entity graph), the
normalization guard `max > min` fails, `normalizedAbstraction` is defined to
be `0.5` (no division by zero is attempted), and the node's seed target
radius is the midpoint of `[0.1·spread, spread]` plus its community-level
offset `level · levelSpacing · 0.3`. -/
theorem normalizedAbstraction_uniform (config : ForceConfig) (g : GraphData)
    (e : Entity) (he : e ∈ g.entities)
    (huniform : ∀ e' ∈ g.entities, abstractionScore e' = abstractionScore e) :
    normalizedAbstraction g e = 1/2 ∧
    ∀ lvl : ℤ, finalRadiusOf config g e lvl =
      (config.spread3D * (1/10) + config.spread3D) / 2 +
        (lvl : ℚ) * config.levelSpacing * (3/10) := by
  have hscores : ∀ x ∈ g.entities.map abstractionScore, x = abstractionScore e := by
    intro x hx
    rcases List.mem_map.mp hx with ⟨e', he', rfl⟩
    exact huniform e' he'
  have hne : g.entities.map abstractionScore ≠ [] :=
    List.ne_nil_of_mem (List.mem_map_of_mem abstractionScore he)
  obtain ⟨hmax, hmin⟩ :=
    max?_min?_const (g.entities.map abstractionScore) (abstractionScore e) hne hscores
  have hnorm : normalizedAbstraction g e = 1/2 := by
    unfold normalizedAbstraction
    simp [hmax, hmin]
  refine ⟨hnorm, fun lvl => ?_⟩
  unfold finalRadiusOf
  rw [hnorm]
  ring

/-- Witness for C10 at a concrete input: a single-entity graph. -/
theorem normalizedAbstraction_uniform_witness :
    normalizedAbstraction testGraphC1 testEntityC1 = 1/2 ∧
    finalRadiusOf defaultForceConfig testGraphC1 testEntityC1 2 =
      (defaultForceConfig.spread3D * (1/10) + defaultForceConfig.spread3D) / 2 +
        (2 : ℚ) * defaultForceConfig.levelSpacing * (3/10) := by
  have h := normalizedAbstraction_uniform defaultForceConfig testGraphC1
    testEntityC1 (by simp [testGraphC1]) (by simp [testGraphC1])
  exact ⟨h.1, h.2 2⟩

/-! ## C5: community-center radius vs. the claimed node-radius mapping -/

/-- Modelled from the spec's words (for the refinement comparison of C5): the
community-center target radius the claim asserts — the mean abstraction of
the community's resolved members, mapped *exactly the same way a node's
abstraction is mapped to its target radius*, i.e.
`minRadius + (1 − abstraction)·(maxRadius − minRadius)` plus the node-side
community-level offset `level · levelSpacing · 0.3`. -/
def claimedCommunityRadius (config : ForceConfig) (members : List Node3D)
    (level : ℤ) : ℚ :=
  let meanAbstraction :=
    (members.map (fun n => n.abstractionLevel)).sum / (members.length : ℚ)
  let minRadius := config.spread3D * (1/10)
  let maxRadius := config.spread3D
  minRadius + (1 - meanAbstraction) * (maxRadius - minRadius) +
    (level : ℚ) * config.levelSpacing * (3/10)

/-- C5 (amended) -- for every community with at least one resolved member,
the stored center's radius is the `|| 0.5`-coalesced mean of the members'
abstraction levels mapped through the node base mapping
`minRadius + (1 − a)·(maxRadius − minRadius)` but with community-level offset
factor `0.2·levelSpacing` (the node mapping uses `0.3·levelSpacing`), and the
center is placed on the same golden-angle spiral as the nodes, indexed by the
community ordinal — the node seed position is that spiral at the node's
jittered radius, the community center is that spiral at the community
radius. -/
theorem communityCenter_radius_and_spiral (ops : RealOps)
    (config : ForceConfig) (nodes : List Node3D) (total i : ℕ)
    (c : AnnotatedCommunity)
    (hne : nodes.filter (fun node =>
      match node.community with
      | some cc => cc.id == c.id
      | none => false) ≠ []) :
    (∃ center, communityCenterEntry ops config nodes total i c = some center ∧
      center.radius =
        config.spread3D * (1/10) +
          (1 - ((nodes.filter (fun node =>
              match node.community with
              | some cc => cc.id == c.id
              | none => false)).map
                (fun node => jsOr node.abstractionLevel (1/2))).sum /
            (((nodes.filter (fun node =>
              match node.community with
              | some cc => cc.id == c.id
              | none => false)).length : ℚ))) *
            (config.spread3D - config.spread3D * (1/10)) +
          (c.level : ℚ) * config.levelSpacing * (2/10) ∧
      (center.x, center.y, center.z) = fibSpherePoint ops center.radius i total) ∧
    (∀ (rand : ℕ → ℚ) (g : GraphData) (j : ℕ) (e : Entity),
      ((mkNode ops rand config g j e).x, (mkNode ops rand config g j e).y,
          (mkNode ops rand config g j e).z) =
        fibSpherePoint ops
          (finalRadiusOf config g e (mkNode ops rand config g j e).communityLevel *
            (9/10 + rand j * (2/10)))
          j g.entities.length) := by
  constructor
  · have hpos : 0 < (nodes.filter (fun node =>
        match node.community with
        | some cc => cc.id == c.id
        | none => false)).length := List.length_pos.mpr hne
    unfold communityCenterEntry
    rw [if_pos hpos]
    exact ⟨_, rfl, by ring, rfl⟩
  · intro rand g j e
    rfl

/-- A one-entity, one-community (level 1) graph for evaluating the
community-center radius concretely. -/
def c5Community : Community where
  id := "uuid-c5"
  human_readable_id := "0"
  level := 1
  parent := none
  children := some []
  title := "C5 community"
  entity_ids := ["e1"]
  size := 0

def c5Graph : GraphData where
  entities := [testEntityC1]
  relationships := []
  communities := [c5Community]

def c5Nodes : List Node3D :=
  preprocessNodes trivOps trivRand defaultForceConfig c5Graph

/-- C5 (counterexample) -- at the concrete input above (default config,
spread 150, level spacing 40, one member of abstraction 0.5, community level
1), the computed community-center radius is `90.5` while the radius obtained
by mapping the mean member abstraction exactly the way a node's abstraction
is mapped (as the claim states) is `94.5`: the code adds
`level·levelSpacing·0.2`, the node mapping `level·levelSpacing·0.3`. -/
theorem communityCenter_radius_counterexample :
    (communityCenterEntry trivOps defaultForceConfig c5Nodes 1 0
      (annotate c5Community)).map (fun center => center.radius) = some (181/2) ∧
    claimedCommunityRadius defaultForceConfig
      (c5Nodes.filter (fun node =>
        match node.community with
        | some cc => cc.id == (annotate c5Community).id
        | none => false))
      c5Community.level = 189/2 ∧
    (communityCenterEntry trivOps defaultForceConfig c5Nodes 1 0
      (annotate c5Community)).map (fun center => center.radius) ≠
    some (claimedCommunityRadius defaultForceConfig
      (c5Nodes.filter (fun node =>
        match node.community with
        | some cc => cc.id == (annotate c5Community).id
        | none => false))
      c5Community.level) := by
  have hnodes : c5Nodes = [mkNode trivOps trivRand defaultForceConfig c5Graph 0 testEntityC1] := by
    simp [c5Nodes, preprocessNodes, c5Graph, List.mapIdx, List.mapIdx.go]
  have habs : (mkNode trivOps trivRand defaultForceConfig c5Graph 0 testEntityC1).abstractionLevel = 1/2 := by
    show normalizedAbstraction c5Graph testEntityC1 = 1/2
    exact (normalizedAbstraction_uniform defaultForceConfig c5Graph testEntityC1
      (by simp [c5Graph]) (by simp [c5Graph])).1
  have hcomm : (mkNode trivOps trivRand defaultForceConfig c5Graph 0 testEntityC1).community = some c5Community := by
    show entityToCommunity c5Graph testEntityC1.id = some c5Community
    simp [entityToCommunity, c5Graph, c5Community, SMap.set, SMap.empty, testEntityC1]
  have hfilter : (c5Nodes.filter (fun node =>
      match node.community with
      | some cc => cc.id == (annotate c5Community).id
      | none => false)) =
      [mkNode trivOps trivRand defaultForceConfig c5Graph 0 testEntityC1] := by
    rw [hnodes]
    simp [List.filter, hcomm, annotate, c5Community]
  refine ⟨?_, ?_, ?_⟩
  · unfold communityCenterEntry
    rw [hfilter]
    simp [jsOr, habs]
    norm_num [defaultForceConfig, c5Community, annotate]
  · unfold claimedCommunityRadius
    rw [hfilter]
    simp [habs]
    norm_num [defaultForceConfig, c5Community]
  · intro hceq
    unfold communityCenterEntry claimedCommunityRadius at hceq
    rw [hfilter] at hceq
    simp [jsOr, habs] at hceq
    norm_num [defaultForceConfig, c5Community, annotate] at hceq

/-- Concrete evaluation of the member filter for the C5 test data. -/
theorem c5_member_filter_eval :
    c5Nodes.filter (fun node =>
      match node.community with
      | some cc => cc.id == (annotate c5Community).id
      | none => false) =
    [mkNode trivOps trivRand defaultForceConfig c5Graph 0 testEntityC1] := by
  have hnodes : c5Nodes = [mkNode trivOps trivRand defaultForceConfig c5Graph 0 testEntityC1] := by
    simp [c5Nodes, preprocessNodes, c5Graph, List.mapIdx, List.mapIdx.go]
  have hcomm : (mkNode trivOps trivRand defaultForceConfig c5Graph 0 testEntityC1).community = some c5Community := by
    show entityToCommunity c5Graph testEntityC1.id = some c5Community
    simp [entityToCommunity, c5Graph, c5Community, SMap.set, SMap.empty, testEntityC1]
  rw [hnodes]
  simp [List.filter, hcomm, annotate, c5Community]

/-- Witness for the amended C5 at a concrete input. -/
theorem communityCenter_radius_and_spiral_witness :
    (c5Nodes.filter (fun node =>
      match node.community with
      | some cc => cc.id == (annotate c5Community).id
      | none => false) ≠ []) ∧
    ∃ center, communityCenterEntry trivOps defaultForceConfig c5Nodes 1 0
        (annotate c5Community) = some center ∧
      (center.x, center.y, center.z) = fibSpherePoint trivOps center.radius 0 1 := by
  have hne : c5Nodes.filter (fun node =>
      match node.community with
      | some cc => cc.id == (annotate c5Community).id
      | none => false) ≠ [] := by
    rw [c5_member_filter_eval]
    simp
  obtain ⟨⟨center, hcenter, _, hspiral⟩, _⟩ :=
    communityCenter_radius_and_spiral trivOps defaultForceConfig c5Nodes 1 0
      (annotate c5Community) hne
  exact ⟨hne, center, hcenter, hspiral⟩
